import Mathlib

/-!
# Verification of the `dataclass_tools` serializer/deserializer

Shallow embedding of `src/dataclass_tools/tools.py` (the package module) and,
where a claim cites it, of the legacy root-level `serializer.py`.

Modelling conventions:
* Python runtime values become the inductive `Value`; machine floats are
  abstracted as opaque tokens (`Prim.pfloat`) since no claim depends on
  float arithmetic; `deepcopy` on leaves is the identity, matching Python's
  atomic treatment of immutable scalars.
* Python exceptions become the `Err` inductive with one constructor per
  raise site of the source (documented on each constructor).
* Dataclass schemas (`fields()` metadata) become `RecordSchema`; classes are
  referenced by name through an environment `Env`, standing for Python's
  global class table.
* The recursive traversal is embedded with an explicit fuel parameter
  (`serFns`/`desFns` build the tier of mutually recursive source functions
  at each fuel level); fuel is a termination artifact only — every theorem
  holds for every sufficient fuel.
* `printing_format`/`include_names` are fixed to their `False` defaults and
  the pretty-printing helpers (`PrintMetadata` etc.) are not modelled: no
  claim mentions them and with the default flags the source never reaches
  those paths.
-/

namespace DataclassTools

/-- Python scalar leaf values. `pfloat` abstracts a float literal as an
opaque token; `penum cls member` is an `Enum` member of class `cls` with
name `member`. -/
inductive Prim where
  | pstr (s : String)
  | pint (n : Int)
  | pfloat (tok : Int)
  | pbool (b : Bool)
  | penum (cls member : String)
deriving DecidableEq, Repr

/-- Python runtime values as seen by the (de)serializer.
`seq true` is a tuple, `seq false` a list; `inst cls fields` is a dataclass
instance of class `cls` with its attribute dictionary; `pyclass n` is a
Python class object named `n` (needed because `_type_str` can return the
builtin class `str` itself). -/
inductive Value where
  | prim (p : Prim)
  | vnone
  | seq (isTuple : Bool) (xs : List Value)
  | dict (entries : List (String × Value))
  | inst (cls : String) (fieldVals : List (String × Value))
  | pyclass (n : String)

/-- The declared (static) type of a dataclass field, as the source inspects
it: `primT` any non-dataclass scalar annotation, `record n` a dataclass
named `n`, `unionT` a `Union[...]` annotation (the source never reads its
arguments: it only observes that it has an `__origin__` and that
`is_dataclass` is false on it), `seqOf`/`mapOf` are `list`/`tuple`/`dict`
generics (`seqOf true` = `tuple[...]`). -/
inductive FType where
  | primT
  | record (n : String)
  | unionT
  | seqOf (isTuple : Bool) (inner : FType)
  | mapOf (inner : FType)
deriving DecidableEq, Repr

/-- The `add_type : Union[bool, str]` option value. -/
inductive AddType where
  | off
  | on
  | key (s : String)
deriving DecidableEq, Repr

/-- The `type_name` option: either the default callable `_get_type_default`
(which returns `typ.__name__`) or a string. Custom user callables are out
of scope (no claim involves one). -/
inductive TypeName where
  | dflt
  | strName (s : String)
deriving DecidableEq, Repr

/-- `DeSerializerOptions` of tools.py, with the same defaults. -/
structure DOptions where
  subs_by_attr : Option String := none
  subs_collection_name : Option String := none
  flatten : Bool := false
  add_type : AddType := .off
  type_label : Option String := none
  type_name : TypeName := .dflt
  subtype_table : Option (List (String × FType)) := none
  overwrite_key : Option String := none
deriving DecidableEq, Repr

/-- All-defaults options: the value `ToolsField.__post_init__` supplies when
a field carries no metadata entry. -/
def defaultOptions : DOptions := {}

/-- One dataclass field as the source sees it: its name, declared type,
default (from `default`/`default_factory`, `none` when the field is
required) and resolved options. -/
structure FieldSchema where
  name : String
  typ : FType
  dflt : Option Value := none
  options : DOptions := defaultOptions

/-- A dataclass: its class name and ordered `fields()`. -/
structure RecordSchema where
  name : String
  fields : List FieldSchema

/-- The table of defined dataclasses, standing for Python's class objects:
maps a class name to its schema. -/
def Env := List (String × RecordSchema)

/-- The `dict_of_collections` argument: bucket name to a dictionary from a
scalar key to an instance. -/
def Cols := List (String × List (Prim × Value))

/-- Python exceptions, one constructor per raise site.
* `fuelOut`: modelling artifact, recursion budget exhausted (never occurs
  at sufficient fuel).
* `keyType`: `KeyTypeError` in `_get_and_process_value` (tools.py L189).
* `starUnpack`: `TypeError` from `{**{k: t}, **value}` when `value` is not
  a mapping (tools.py L200).
* `attrMissing`: `AttributeError` from `getattr` (tools.py L187/L346).
* `notDataclass`: `TypeError` guard of `serialize_dataclass` (L409) or from
  `fields()` on a non-dataclass (L350).
* `envMissing`: modelling artifact, a class name not present in `Env`.
* `flattenOrigin`: `ValueError` "can't be flattened" (tools.py L281).
* `addTypeNoTable`: `TypeError` in `_field_type` (tools.py L260) — the
  spec's `ConfigurationError`.
* `subscriptNone`: `TypeError` from subscripting a non-mapping, e.g.
  `None[k]` (tools.py L265/L295) or `None[...]` when `dict_of_collections`
  is absent (L331).
* `keyMissing`: `KeyError` from `raw_dct[self._key]` / `dct[self._type_key]`.
* `tableMissing`: `KeyError` from `table[type_repr]` (tools.py L267) — the
  spec's `UnknownTypeError`.
* `collectionMissing`: `KeyError` from `dict_of_collections[...][...]`
  (tools.py L331) — the spec's `ReferenceLookupError`.
* `missingArg f`: `TypeError` from `dataclass(**input_dict)` when required
  field `f` is absent (tools.py L396) — the spec's `MissingKeyError`.
* `noGetAttr`: `AttributeError` from `.get` on a non-dict (tools.py L320).
* `itemsNonDict`: `AttributeError` from `.items()` on a non-dict in the
  merge comprehensions (tools.py L352/L391).
* `notIterable`: `TypeError` iterating a non-sequence (tools.py L288-296);
  iteration of strings/dicts as character/key streams is not modelled. -/
inductive Err where
  | fuelOut
  | keyType
  | starUnpack
  | attrMissing
  | notDataclass
  | envMissing
  | flattenOrigin
  | addTypeNoTable
  | subscriptNone
  | keyMissing
  | tableMissing
  | collectionMissing
  | missingArg (f : String)
  | noGetAttr
  | itemsNonDict
  | notIterable
deriving DecidableEq, Repr

/-- `DEFAULT_TYPE_LABEL = "typ"` (tools.py L62). -/
def DEFAULT_TYPE_LABEL : String := "typ"

/-- Association-list lookup by string key, modelling Python `d[k]` /
`d.get(k)` membership on an insertion-ordered dict. -/
def alookup (es : List (String × Value)) (k : String) : Option Value :=
  match es with
  | [] => none
  | (k', v) :: rest => if k' = k then some v else alookup rest k

/-- Lookup in a scalar-keyed bucket of `dict_of_collections`. -/
def plookup (es : List (Prim × Value)) (k : Prim) : Option Value :=
  match es with
  | [] => none
  | (k', v) :: rest => if k' = k then some v else plookup rest k

/-- Class-table lookup (Python resolving a class object by name). -/
def envLookup (env : Env) (n : String) : Option RecordSchema :=
  match env with
  | [] => none
  | (n', r) :: rest => if n' = n then some r else envLookup rest n

/-- Lookup in the `subtype_table`. -/
def tblLookup (tbl : List (String × FType)) (k : String) : Option FType :=
  match tbl with
  | [] => none
  | (k', t) :: rest => if k' = k then some t else tblLookup rest k

/-- Python dict assignment `d[k] = v`: replace in place when the key is
present, append otherwise (insertion order preserved). -/
def dictIns (es : List (String × Value)) (k : String) (v : Value) :
    List (String × Value) :=
  match es with
  | [] => [(k, v)]
  | (k', v') :: rest =>
    if k' = k then (k', v) :: rest else (k', v') :: dictIns rest k v

/-- Python `{**base, **upd}` / successive `update` calls. -/
def dictUpdateAll (base upd : List (String × Value)) : List (String × Value) :=
  match upd with
  | [] => base
  | (k, v) :: rest => dictUpdateAll (dictIns base k v) rest

/-- Python truthiness of an `Optional[str]` option: `None` and `""` are
falsy (the source tests these options with `or` / bare `if`). -/
def strOpt (o : Option String) : Option String :=
  match o with
  | some s => if s = "" then none else some s
  | none => none

/-- Truthiness of `add_type` (`if options.add_type:`): `False` and the
empty string are falsy. -/
def AddType.truthy : AddType → Bool
  | .off => false
  | .on => true
  | .key s => !(s = "")

/-- Truthiness of `subtype_table` (`not self.options.subtype_table`): an
absent or empty table is falsy. -/
def tableTruthy : Option (List (String × FType)) → Bool
  | none => false
  | some [] => false
  | some (_ :: _) => true

/-- `ToolsField._key` (tools.py L136-138):
`self.options.overwrite_key or self.field_.name`. -/
def effKey (f : FieldSchema) : String :=
  match strOpt f.options.overwrite_key with
  | some s => s
  | none => f.name

/-- `ToolsField._type_key` (tools.py L164-171): `type_label` if truthy, else
`"typ"` for non-flattened fields, else the effective key. -/
def typeKey (f : FieldSchema) : String :=
  match strOpt f.options.type_label with
  | some s => s
  | none => if f.options.flatten then effKey f else DEFAULT_TYPE_LABEL

/-- `ToolsField._collection_key` (tools.py L155-162):
`subs_collection_name` if truthy, else the field name. -/
def collectionKey (f : FieldSchema) : String :=
  match strOpt f.options.subs_collection_name with
  | some s => s
  | none => f.name

/-- Python `type(obj).__name__` on a modelled value. -/
def pyTypeName : Value → String
  | .prim (.pstr _) => "str"
  | .prim (.pint _) => "int"
  | .prim (.pfloat _) => "float"
  | .prim (.pbool _) => "bool"
  | .prim (.penum c _) => c
  | .vnone => "NoneType"
  | .seq true _ => "tuple"
  | .seq false _ => "list"
  | .dict _ => "dict"
  | .inst c _ => c
  | .pyclass _ => "type"

/-- `ToolsField._type_str` (tools.py L140-153) applied to `type(obj)`.
Faithfully reproduces the source: when `type_name` is a *string* the
function returns the builtin class `str` itself (`return str`), not the
string; the default callable returns `typ.__name__`. The trailing
`ValueError` branch is unreachable for the modelled option values. -/
def typeStr (tn : TypeName) (typName : String) : Value :=
  match tn with
  | .strName _ => .pyclass "str"
  | .dflt => .prim (.pstr typName)

/-- `isinstance(v, get_args(PERMITED_KEY_TYPES))` with
`PERMITED_KEY_TYPES = Union[str, int, float, bool, Enum]` (tools.py L64):
true exactly on scalar leaves, including enum members. -/
def isPermittedKey : Value → Bool
  | .prim _ => true
  | _ => false

/-- `getattr(obj, a)` on a dataclass instance; any other receiver raises
`AttributeError` in the contexts the source uses it. -/
def getAttr (obj : Value) (a : String) : Except Err Value :=
  match obj with
  | .inst _ fs =>
    match alookup fs a with
    | some v => .ok v
    | none => .error .attrMissing
  | _ => .error .attrMissing

/-- Python `raw[k]` subscription: `KeyError` on a missing key, `TypeError`
on a non-mapping receiver. -/
def dictGetStrict (raw : Value) (k : String) : Except Err Value :=
  match raw with
  | .dict es =>
    match alookup es k with
    | some v => .ok v
    | none => .error .keyMissing
  | _ => .error .subscriptNone

/-- Python `raw.get(k)`: `None` on a missing key, `AttributeError` on a
non-dict receiver. -/
def dictGetLenient (raw : Value) (k : String) : Except Err Value :=
  match raw with
  | .dict es =>
    match alookup es k with
    | some v => .ok v
    | none => .ok .vnone
  | _ => .error .noGetAttr

/-- `dict_of_collections[self._collection_key][value]` (tools.py L331):
`TypeError` when `dict_of_collections` is `None`, `KeyError` when the
bucket or the scalar key is absent (non-scalar keys are unhashable or
unequal to every stored key and also fail the lookup). -/
def colsLookup (cols : Option Cols) (bucket : String) (v : Value) :
    Except Err Value :=
  match cols with
  | none => .error .subscriptNone
  | some cs =>
    match envColsFind cs bucket with
    | none => .error .collectionMissing
    | some b =>
      match v with
      | .prim p =>
        match plookup b p with
        | some inst => .ok inst
        | none => .error .collectionMissing
      | _ => .error .collectionMissing
where
  envColsFind (cs : Cols) (bucket : String) : Option (List (Prim × Value)) :=
    match cs with
    | [] => none
    | (n, b) :: rest => if n = bucket then some b else envColsFind rest bucket

/-- A sequence- or mapping-typed field declaration. -/
def isCollectionType : FType → Bool
  | .seqOf _ _ => true
  | .mapOf _ => true
  | _ => false

/-- `hasattr(self.field_.type, "__origin__")`: true for `list[...]`,
`tuple[...]`, `dict[...]` and `Union[...]` annotations. -/
def hasOrigin : FType → Bool
  | .seqOf _ _ => true
  | .mapOf _ => true
  | .unionT => true
  | _ => false

/-- `is_dataclass(typ)` on a static type: true only for a dataclass;
`Union[...]` and builtins are not dataclasses. -/
def FType.isRec : FType → Bool
  | .record _ => true
  | _ => false

/-- `ToolsField._field_type` (tools.py L256-268): the declared type unless
`add_type` is truthy, in which case a missing/empty `subtype_table` is a
configuration error, and otherwise the type tag stored under
`self._type_key` is looked up in the table. -/
def fieldType (f : FieldSchema) (dct : Value) : Except Err FType :=
  if f.options.add_type.truthy then
    if !tableTruthy f.options.subtype_table then .error .addTypeNoTable
    else
      match dictGetStrict dct (typeKey f) with
      | .error e => .error e
      | .ok tag =>
        match tag with
        | .prim (.pstr s) =>
          match tblLookup (f.options.subtype_table.getD []) s with
          | some t => .ok t
          | none => .error .tableMissing
        | _ => .error .tableMissing
  else .ok f.typ

/-- The tier of mutually recursive serializer functions of tools.py at one
fuel level: `dc` is `_serialize_dataclass`, `fld` is
`ToolsField._serialize_field`, `getProc` is
`ToolsField._get_and_process_value`, `getVal` is `_get_value`. -/
structure SerFns where
  dc : Value → Except Err (List (String × Value))
  fld : FieldSchema → Value → Bool → Except Err Value
  getProc : FieldSchema → Value → Except Err Value
  getVal : Value → Except Err Value

/-- The element loop of `_serialize_field` over a list/tuple value
(tools.py L221-230): each element serialized with `in_collection=True`. -/
def serElems (fld : FieldSchema → Value → Bool → Except Err Value)
    (f : FieldSchema) : List Value → Except Err (List Value)
  | [] => .ok []
  | x :: xs =>
    match fld f x true with
    | .error e => .error e
    | .ok v =>
      match serElems fld f xs with
      | .error e => .error e
      | .ok vs => .ok (v :: vs)

/-- The entry loop of `_serialize_field` over a dict value (tools.py
L232-244): `value.update({key: serialized})` for each entry in order. -/
def serEntries (fld : FieldSchema → Value → Bool → Except Err Value)
    (f : FieldSchema) (acc : List (String × Value)) :
    List (String × Value) → Except Err (List (String × Value))
  | [] => .ok acc
  | (k, x) :: rest =>
    match fld f x true with
    | .error e => .error e
    | .ok v => serEntries fld f (dictIns acc k v) rest

/-- The field loop of `_serialize_dataclass` (tools.py L344-351):
`_serialize_field(getattr(obj, field.name))` for each field. -/
def serFieldsLoop (fld : FieldSchema → Value → Bool → Except Err Value)
    (obj : Value) : List FieldSchema → Except Err (List Value)
  | [] => .ok []
  | f :: fs =>
    match getAttr obj f.name with
    | .error e => .error e
    | .ok v =>
      match fld f v false with
      | .error e => .error e
      | .ok d =>
        match serFieldsLoop fld obj fs with
        | .error e => .error e
        | .ok ds => .ok (d :: ds)

/-- The merge comprehension of `_serialize_dataclass` (tools.py L352):
`{key: value for x in list_of_dict_repr for key, value in x.items()}`.
Each per-field result must be a dict (`.items()`), later keys overwrite
earlier ones in place. -/
def mergeItems (acc : List (String × Value)) :
    List Value → Except Err (List (String × Value))
  | [] => .ok acc
  | .dict es :: rest => mergeItems (dictUpdateAll acc es) rest
  | _ :: _ => .error .itemsNonDict

/-- One fuel level of the serializer tier. Within a level the components
reference each other acyclically in source call order
(`dc → fld → getProc → getVal`); the two knot-closing calls —
`_get_value → _serialize_dataclass` for nested instances and the
self-recursion of `_serialize_field` on container elements — step down to
the previous level, so fuel bounds only the value nesting depth. -/
def serFns (env : Env) : Nat → SerFns
  | 0 =>
    ⟨fun _ => .error .fuelOut, fun _ _ _ => .error .fuelOut,
     fun _ _ => .error .fuelOut, fun _ => .error .fuelOut⟩
  | n + 1 =>
    let prev := serFns env n
    -- `_get_value` (tools.py L355-365): recurse on dataclasses, take the
    -- `.name` of enum members, deep-copy everything else.
    let getVal : Value → Except Err Value := fun obj =>
      match obj with
      | .inst _ _ =>
        match prev.dc obj with
        | .error e => .error e
        | .ok pairs => .ok (.dict pairs)
      | .prim (.penum _ m) => .ok (.prim (.pstr m))
      | v => .ok v
    -- `_get_and_process_value` (tools.py L173-208) with the default
    -- `print_format=False` (the metadata branch is never reached).
    let getProc : FieldSchema → Value → Except Err Value := fun f obj =>
      match strOpt f.options.subs_by_attr with
      | some a =>
        match getAttr obj a with
        | .error e => .error e
        | .ok attr =>
          if isPermittedKey attr then .ok attr else .error .keyType
      | none =>
        match getVal obj with
        | .error e => .error e
        | .ok v =>
          if f.options.add_type.truthy then
            match v with
            | .dict es =>
              .ok (.dict (dictUpdateAll
                [(typeKey f, typeStr f.options.type_name (pyTypeName obj))] es))
            | _ => .error .starUnpack
          else .ok v
    -- `_serialize_field` (tools.py L210-254). Note the list/tuple branch
    -- returns `{name: value}` early, before the flatten check.
    let fld : FieldSchema → Value → Bool → Except Err Value :=
      fun f obj inCol =>
        match obj with
        | .seq isTup xs =>
          match serElems prev.fld f xs with
          | .error e => .error e
          | .ok vs => .ok (.dict [(effKey f, .seq isTup vs)])
        | .dict es =>
          match serEntries prev.fld f [] es with
          | .error e => .error e
          | .ok es' =>
            if f.options.flatten || inCol then .ok (.dict es')
            else .ok (.dict [(effKey f, .dict es')])
        | _ =>
          match getProc f obj with
          | .error e => .error e
          | .ok v =>
            if f.options.flatten || inCol then .ok v
            else .ok (.dict [(effKey f, v)])
    -- `_serialize_dataclass` (tools.py L337-352); `fields(obj)` resolves
    -- the instance's class through the environment.
    let dc : Value → Except Err (List (String × Value)) := fun obj =>
      match obj with
      | .inst cls _ =>
        match envLookup env cls with
        | none => .error .envMissing
        | some r =>
          match serFieldsLoop fld obj r.fields with
          | .error e => .error e
          | .ok ds => mergeItems [] ds
      | _ => .error .notDataclass
    ⟨dc, fld, getProc, getVal⟩

/-- `_serialize_dataclass` (tools.py L337-352). -/
def serialize_dataclass_aux (env : Env) (fuel : Nat) (obj : Value) :
    Except Err (List (String × Value)) :=
  (serFns env fuel).dc obj

/-- `ToolsField._serialize_field` (tools.py L210-254). -/
def serializeField (env : Env) (fuel : Nat) (f : FieldSchema) (obj : Value)
    (inCol : Bool) : Except Err Value :=
  (serFns env fuel).fld f obj inCol

/-- `ToolsField._get_and_process_value` (tools.py L173-208). -/
def getProcessValue (env : Env) (fuel : Nat) (f : FieldSchema) (obj : Value) :
    Except Err Value :=
  (serFns env fuel).getProc f obj

/-- `serialize_dataclass` (tools.py L401-412): the public entry point,
guarding that the argument is a dataclass instance and returning the
serialized dict. -/
def serialize_dataclass (env : Env) (fuel : Nat) (obj : Value) :
    Except Err Value :=
  match obj with
  | .inst _ _ =>
    match serialize_dataclass_aux env fuel obj with
    | .error e => .error e
    | .ok pairs => .ok (.dict pairs)
  | _ => .error .notDataclass

/-- The tier of mutually recursive deserializer functions of tools.py at
one fuel level: `ddc` is `_deserialize_dataclass`, `dfld` is
`ToolsField._deserialize_field`. -/
structure DesFns where
  ddc : Value → RecordSchema → Bool → Bool → Option Cols → Except Err Value
  dfld : FieldSchema → Value → Bool → Bool → Option Cols → Except Err Value

/-- The element loop of `_deserialize_field` over a serialized sequence
(tools.py L288-296): each element deserialized with `in_collection=True`
against the inner type. -/
def desElems
    (dfld : FieldSchema → Value → Bool → Bool → Option Cols → Except Err Value)
    (f : FieldSchema) (build : Bool) (cols : Option Cols) :
    List Value → Except Err (List Value)
  | [] => .ok []
  | x :: xs =>
    match dfld f x true build cols with
    | .error e => .error e
    | .ok v =>
      match desElems dfld f build cols xs with
      | .error e => .error e
      | .ok vs => .ok (v :: vs)

/-- The entry loop of `_deserialize_field` over a serialized mapping
(tools.py L307-315). -/
def desEntries
    (dfld : FieldSchema → Value → Bool → Bool → Option Cols → Except Err Value)
    (f : FieldSchema) (build : Bool) (cols : Option Cols) :
    List (String × Value) → Except Err (List (String × Value))
  | [] => .ok []
  | (k, x) :: rest =>
    match dfld f x true build cols with
    | .error e => .error e
    | .ok v =>
      match desEntries dfld f build cols rest with
      | .error e => .error e
      | .ok vs => .ok ((k, v) :: vs)

/-- The field loop of `_deserialize_dataclass` (tools.py L378-386). -/
def desFieldsLoop
    (dfld : FieldSchema → Value → Bool → Bool → Option Cols → Except Err Value)
    (dct : Value) (inCol build : Bool) (cols : Option Cols) :
    List FieldSchema → Except Err (List Value)
  | [] => .ok []
  | f :: fs =>
    match dfld f dct inCol build cols with
    | .error e => .error e
    | .ok d =>
      match desFieldsLoop dfld dct inCol build cols fs with
      | .error e => .error e
      | .ok ds => .ok (d :: ds)

/-- The merge comprehension of `_deserialize_dataclass` (tools.py
L388-393): like `mergeItems` but dropping entries whose value is `None`
(`if not value is None`). -/
def mergeArgs (acc : List (String × Value)) :
    List Value → Except Err (List (String × Value))
  | [] => .ok acc
  | .dict es :: rest => mergeArgs (dictUpdateAll acc (dropNones es)) rest
  | _ :: _ => .error .itemsNonDict
where
  dropNones : List (String × Value) → List (String × Value)
    | [] => []
    | (_, .vnone) :: rest => dropNones rest
    | (k, v) :: rest => (k, v) :: dropNones rest

/-- `dataclass(**input_dict)` (tools.py L396): take each field's argument
from the collected mapping, fall back to the field's default, and raise
`TypeError` when a required argument is missing. Extraneous keys cannot
occur (every key in the mapping is a field name). -/
def constructInstance (r : RecordSchema) (args : List (String × Value)) :
    Except Err Value :=
  match go r.fields with
  | .error e => .error e
  | .ok pairs => .ok (.inst r.name pairs)
where
  go : List FieldSchema → Except Err (List (String × Value))
    | [] => .ok []
    | f :: fs =>
      match (match alookup args f.name with
             | some v => .ok v
             | none =>
               match f.dflt with
               | some d => .ok d
               | none => .error (.missingArg f.name) : Except Err Value) with
      | .error e => .error e
      | .ok v =>
        match go fs with
        | .error e => .error e
        | .ok pairs => .ok ((f.name, v) :: pairs)

/-- The non-`__origin__` tail of `_deserialize_field` (tools.py L317-334):
extract the raw sub-value (reuse the current level when flattened or in a
collection, else `.get` by the effective key), resolve the concrete type,
recurse into nested dataclasses unless `substitute_by_attribute` is set,
resolve references through `dict_of_collections` when building instances,
and wrap under the field name unless in a collection. -/
def desScalar (env : Env)
    (ddc : Value → RecordSchema → Bool → Bool → Option Cols → Except Err Value)
    (f : FieldSchema) (raw : Value) (inCol build : Bool)
    (cols : Option Cols) : Except Err Value :=
  match (if inCol || f.options.flatten then .ok raw
         else dictGetLenient raw (effKey f) : Except Err Value) with
  | .error e => .error e
  | .ok value =>
    match fieldType f value with
    | .error e => .error e
    | .ok typ =>
      match (if typ.isRec then
               match strOpt f.options.subs_by_attr with
               | none =>
                 match typ with
                 | .record rn =>
                   match envLookup env rn with
                   | some r => ddc value r false build cols
                   | none => .error .envMissing
                 | _ => .error .envMissing
               | some _ =>
                 if build then colsLookup cols (collectionKey f) value
                 else .ok value
             else .ok value : Except Err Value) with
      | .error e => .error e
      | .ok v => if inCol then .ok v else .ok (.dict [(f.name, v)])

/-- One fuel level of the deserializer tier. `dfld`'s recursion on
container elements and its call into `_deserialize_dataclass` step down a
level; `ddc` uses the same-level `dfld`. -/
def desFns (env : Env) : Nat → DesFns
  | 0 =>
    ⟨fun _ _ _ _ _ => .error .fuelOut, fun _ _ _ _ _ => .error .fuelOut⟩
  | n + 1 =>
    let prev := desFns env n
    -- `_deserialize_field` (tools.py L270-334). A `Union[...]` annotation
    -- has an `__origin__` but is neither list/tuple nor dict, so after the
    -- flatten check it falls through to the scalar tail.
    let dfld : FieldSchema → Value → Bool → Bool → Option Cols →
        Except Err Value := fun f raw inCol build cols =>
      match f.typ with
      | .seqOf isTup inner =>
        if f.options.flatten then .error .flattenOrigin
        else
          match dictGetStrict raw (effKey f) with
          | .error e => .error e
          | .ok sub =>
            match sub with
            | .seq _ xs =>
              match desElems prev.dfld { f with typ := inner } build cols xs with
              | .error e => .error e
              | .ok vs => .ok (.dict [(f.name, .seq isTup vs)])
            | _ => .error .notIterable
      | .mapOf inner =>
        if f.options.flatten then .error .flattenOrigin
        else
          match dictGetStrict raw (effKey f) with
          | .error e => .error e
          | .ok sub =>
            match sub with
            | .dict es =>
              match desEntries prev.dfld { f with typ := inner } build cols es with
              | .error e => .error e
              | .ok es' => .ok (.dict [(f.name, .dict es')])
            | _ => .error .itemsNonDict
      | .unionT =>
        if f.options.flatten then .error .flattenOrigin
        else desScalar env prev.ddc f raw inCol build cols
      | _ => desScalar env prev.ddc f raw inCol build cols
    -- `_deserialize_dataclass` (tools.py L368-398).
    let ddc : Value → RecordSchema → Bool → Bool → Option Cols →
        Except Err Value := fun dct r inCol build cols =>
      match desFieldsLoop dfld dct inCol build cols r.fields with
      | .error e => .error e
      | .ok ds =>
        match mergeArgs [] ds with
        | .error e => .error e
        | .ok args =>
          if build then constructInstance r args else .ok (.dict args)
    ⟨ddc, dfld⟩

/-- `_deserialize_dataclass` (tools.py L368-398) with all arguments
explicit. -/
def deserialize_dataclass_aux (env : Env) (fuel : Nat) (dct : Value)
    (r : RecordSchema) (inCol build : Bool) (cols : Option Cols) :
    Except Err Value :=
  (desFns env fuel).ddc dct r inCol build cols

/-- `_deserialize_dataclass` invoked with its Python defaults
(`in_collection=False`, `build_instance=True`, `dict_of_collections=None`). -/
def deserialize_dataclass_aux_default (env : Env) (fuel : Nat) (dct : Value)
    (r : RecordSchema) : Except Err Value :=
  deserialize_dataclass_aux env fuel dct r false true none

/-- `ToolsField._deserialize_field` (tools.py L270-334). -/
def deserializeField (env : Env) (fuel : Nat) (f : FieldSchema) (raw : Value)
    (inCol build : Bool) (cols : Option Cols) : Except Err Value :=
  (desFns env fuel).dfld f raw inCol build cols

/-- `deserialize_dataclass` (tools.py L415-434): the public entry point.
Its `isinstance(dataclass, DataClass)` guard always passes for a dataclass
schema; it forwards with `in_collection` left at `False`. -/
def deserialize_dataclass (env : Env) (fuel : Nat) (dct : Value)
    (r : RecordSchema) (build : Bool) (cols : Option Cols) :
    Except Err Value :=
  deserialize_dataclass_aux env fuel dct r false build cols

/-- `deserialize_dataclass` invoked without `build_instance` and
`dict_of_collections`: the Python defaults are `build_instance=False`,
`dict_of_collections=None`. -/
def deserialize_dataclass_default (env : Env) (fuel : Nat) (dct : Value)
    (r : RecordSchema) : Except Err Value :=
  deserialize_dataclass env fuel dct r false none

/-- Legacy `serializer.py` L60-74 (`_get_and_process_value`): the key the
type tag is stored under there, `None` when `add_type` is falsy. The old
module computes `default_label = DEFAULT_TYPE_LABEL if not flatten else
name` and then `type_key = default_label if add_type is True else
add_type` — a string `add_type` *is* the key in that module. -/
def legacySerializerTypeKey (addType : AddType) (flatten : Bool)
    (name : String) : Option String :=
  if addType.truthy then
    some (match addType with
          | .on => if flatten then name else DEFAULT_TYPE_LABEL
          | .key s => s
          | .off => DEFAULT_TYPE_LABEL)
  else none

/-- A primitive leaf value in the sense of the spec (§6: "leaves are
primitives, strings, booleans"): a plain scalar, excluding `None` and enum
members (which the source special-cases). -/
def isPrimitiveLeaf : Value → Bool
  | .prim (.pstr _) => true
  | .prim (.pint _) => true
  | .prim (.pfloat _) => true
  | .prim (.pbool _) => true
  | _ => false

/-- `v is None`. -/
def Value.isNoneV : Value → Bool
  | .vnone => true
  | _ => false

/-- Convenience accessor for stating facts about a concrete schema. -/
def findField (r : RecordSchema) (n : String) : Option FieldSchema :=
  go r.fields
where
  go : List FieldSchema → Option FieldSchema
    | [] => none
    | f :: fs => if f.name = n then some f else go fs

/-- Every field of the record is required (has no default). -/
def allRequired (r : RecordSchema) : Bool :=
  r.fields.all fun f => f.dflt.isNone

/-- The constructor-argument mapping `_deserialize_dataclass` collects for
a record of primitive-typed, default-option fields from a tree: per-field
lenient extraction by name, with `None` values dropped. -/
def argsOf (r : RecordSchema) (tree : List (String × Value)) :
    List (String × Value) :=
  (r.fields.map fun f => (f.name, (alookup tree f.name).getD .vnone)).filter
    fun p => !p.2.isNoneV

/-- The type-tag key as claim C2 states it: `type_label` if set, else the
fixed default label `"typ"` when `flatten` is false, else the effective key
(`overwrite_key` if set, else the field name). Written from the claim's
words, to be compared with `typeKey` (the source's `_type_key`). -/
def typeKeySpec (f : FieldSchema) : String :=
  match f.options.type_label with
  | some s => s
  | none =>
    if f.options.flatten then
      match f.options.overwrite_key with
      | some s => s
      | none => f.name
    else "typ"

/-- The permitted scalar key set as claim C8 states it: string, integer,
float, boolean — written from the claim's words, to be compared with the
source's `PERMITED_KEY_TYPES` check (`isPermittedKey`), which additionally
admits enum members. -/
def claimPermittedScalar : Value → Bool
  | .prim (.pstr _) => true
  | .prim (.pint _) => true
  | .prim (.pfloat _) => true
  | .prim (.pbool _) => true
  | _ => false

/-! ## Concrete fixtures

Schemas, environments and values used by the concrete claim theorems,
witnesses and counterexamples. They mirror the repository's own test
fixtures (`test/test_.py`). -/

/-- The `age` field of `childR` (required, primitive, no options). -/
def ageF : FieldSchema := ⟨"age", .primT, none, defaultOptions⟩

/-- `Child(age: float, name: str)` with no options. -/
def childR : RecordSchema :=
  ⟨"Child", [ageF, ⟨"name", .primT, none, defaultOptions⟩]⟩

/-- `Parent(childs: list[Child] (subs_by_attr="name"), name: str)`. -/
def parentR : RecordSchema :=
  ⟨"Parent", [⟨"childs", .seqOf false (.record "Child"), none,
      { subs_by_attr := some "name" }⟩,
    ⟨"name", .primT, none, defaultOptions⟩]⟩

def envC4 : Env := [("Child", childR), ("Parent", parentR)]

def cLeon : Value :=
  .inst "Child" [("age", .prim (.pint 1)), ("name", .prim (.pstr "leon"))]

def cNathan : Value :=
  .inst "Child" [("age", .prim (.pint 4)), ("name", .prim (.pstr "nathan"))]

def parentInst : Value :=
  .inst "Parent" [("childs", .seq false [cLeon, cNathan]),
    ("name", .prim (.pstr "dad"))]

def parentTree : Value :=
  .dict [("childs", .seq false [.prim (.pstr "leon"), .prim (.pstr "nathan")]),
    ("name", .prim (.pstr "dad"))]

/-- The Collection-Reference Index `{"childs": {"leon": c1, "nathan": c2}}`. -/
def colsC4 : Cols :=
  [("childs", [(.pstr "leon", cLeon), (.pstr "nathan", cNathan)])]

/-- The flattened sequence field `childs: list[Child] (flatten=True)`. -/
def flatChildsF : FieldSchema :=
  ⟨"childs", .seqOf false (.record "Child"), none, { flatten := true }⟩

/-- `FlatParent(childs: list[Child] (flatten=True), name: str)`: a record
with a flattened sequence field. -/
def flatParR : RecordSchema :=
  ⟨"FlatParent", [flatChildsF, ⟨"name", .primT, none, defaultOptions⟩]⟩

def envC6 : Env := [("Child", childR), ("FlatParent", flatParR)]

def fparInst : Value :=
  .inst "FlatParent" [("childs", .seq false [cLeon]),
    ("name", .prim (.pstr "dad"))]

def fparTree : Value :=
  .dict [("childs", .seq false
      [.dict [("age", .prim (.pint 1)), ("name", .prim (.pstr "leon"))]]),
    ("name", .prim (.pstr "dad"))]

/-- `Adult(name: str, job: str)`. -/
def adultR : RecordSchema :=
  ⟨"Adult", [⟨"name", .primT, none, defaultOptions⟩,
    ⟨"job", .primT, none, defaultOptions⟩]⟩

/-- `Person(person: Union[...] (add_type=True))` with no subtype table. -/
def personR : RecordSchema :=
  ⟨"Person", [⟨"person", .unionT, none, { add_type := .on }⟩]⟩

def envC7 : Env := [("Adult", adultR), ("Person", personR)]

def adultInst : Value :=
  .inst "Adult" [("name", .prim (.pstr "bob")), ("job", .prim (.pstr "cook"))]

def personInst : Value := .inst "Person" [("person", adultInst)]

/-- The serialized `person` sub-dict: the tag first, then the fields. -/
def personTreeEntries : List (String × Value) :=
  [("typ", .prim (.pstr "Adult")), ("name", .prim (.pstr "bob")),
    ("job", .prim (.pstr "cook"))]

def personTree : Value := .dict [("person", .dict personTreeEntries)]

/-- The `person` field of `personR`: `add_type=True`, no subtype table. -/
def personF : FieldSchema := ⟨"person", .unionT, none, { add_type := .on }⟩

/-- `Persons(persons: list[Union[...]] (add_type=True))` with no subtype
table: the per-element configuration check never runs on an empty list. -/
def personsR : RecordSchema :=
  ⟨"Persons", [⟨"persons", .seqOf false .unionT, none, { add_type := .on }⟩]⟩

def envC7b : Env := [("Persons", personsR)]

/-- `Person(person: Union[...] (add_type=s))` for a string-valued
`add_type`. -/
def personKR (s : String) : RecordSchema :=
  ⟨"Person", [⟨"person", .unionT, none, { add_type := .key s }⟩]⟩

def envC3 (s : String) : Env := [("Adult", adultR), ("Person", personKR s)]

/-- `Person(person: Union[...] (add_type=True, type_name="Foo"))`. -/
def personNR : RecordSchema :=
  ⟨"Person", [⟨"person", .unionT, none,
    { add_type := .on, type_name := .strName "Foo" }⟩]⟩

def envC9 : Env := [("Adult", adultR), ("Person", personNR)]

/-- A field configured with `substitute_by_attribute="color"`. -/
def subsColorF : FieldSchema :=
  ⟨"child", .record "CChild", none, { subs_by_attr := some "color" }⟩

/-- An instance whose `color` attribute is an enum member. -/
def enumChild : Value :=
  .inst "CChild" [("color", .prim (.penum "Color" "RED"))]

/-- A field used by the C2 witness: `type_label` unset, `flatten` set,
`overwrite_key` set. -/
def fC2 : FieldSchema :=
  ⟨"location", .record "StreetAdress", none,
    { flatten := true, add_type := .on, overwrite_key := some "loc" }⟩

def treeC5 : List (String × Value) := [("name", .prim (.pstr "x"))]

def pairsC1 : List (String × Value) :=
  [("age", .prim (.pint 1)), ("name", .prim (.pstr "bob"))]

def envC1 : Env := [("Child", childR)]

/-! ## Unfolding equations for the fuel tiers

Each lemma re-expresses a component of `serFns (n+1)` / `desFns (n+1)` in
terms of same- or previous-level projections, so proofs can rewrite one
source function at a time. All hold by `rfl`. -/

theorem serFns_getVal_eq (env : Env) (n : Nat) (obj : Value) :
    (serFns env (n + 1)).getVal obj =
      (match obj with
       | .inst _ _ =>
         match (serFns env n).dc obj with
         | .error e => .error e
         | .ok pairs => .ok (.dict pairs)
       | .prim (.penum _ m) => .ok (.prim (.pstr m))
       | v => .ok v) := rfl

theorem serFns_getProc_eq (env : Env) (n : Nat) (f : FieldSchema)
    (obj : Value) :
    (serFns env (n + 1)).getProc f obj =
      (match strOpt f.options.subs_by_attr with
       | some a =>
         match getAttr obj a with
         | .error e => .error e
         | .ok attr =>
           if isPermittedKey attr then .ok attr else .error .keyType
       | none =>
         match (serFns env (n + 1)).getVal obj with
         | .error e => .error e
         | .ok v =>
           if f.options.add_type.truthy then
             match v with
             | .dict es =>
               .ok (.dict (dictUpdateAll
                 [(typeKey f, typeStr f.options.type_name (pyTypeName obj))] es))
             | _ => .error .starUnpack
           else .ok v) := rfl

theorem serFns_fld_eq (env : Env) (n : Nat) (f : FieldSchema) (obj : Value)
    (inCol : Bool) :
    (serFns env (n + 1)).fld f obj inCol =
      (match obj with
       | .seq isTup xs =>
         match serElems (serFns env n).fld f xs with
         | .error e => .error e
         | .ok vs => .ok (.dict [(effKey f, .seq isTup vs)])
       | .dict es =>
         match serEntries (serFns env n).fld f [] es with
         | .error e => .error e
         | .ok es' =>
           if f.options.flatten || inCol then .ok (.dict es')
           else .ok (.dict [(effKey f, .dict es')])
       | _ =>
         match (serFns env (n + 1)).getProc f obj with
         | .error e => .error e
         | .ok v =>
           if f.options.flatten || inCol then .ok v
           else .ok (.dict [(effKey f, v)])) := rfl

theorem serFns_dc_eq (env : Env) (n : Nat) (obj : Value) :
    (serFns env (n + 1)).dc obj =
      (match obj with
       | .inst cls _ =>
         match envLookup env cls with
         | none => .error .envMissing
         | some r =>
           match serFieldsLoop ((serFns env (n + 1)).fld) obj r.fields with
           | .error e => .error e
           | .ok ds => mergeItems [] ds
       | _ => .error .notDataclass) := rfl

theorem desFns_dfld_eq (env : Env) (n : Nat) (f : FieldSchema) (raw : Value)
    (inCol build : Bool) (cols : Option Cols) :
    (desFns env (n + 1)).dfld f raw inCol build cols =
      (match f.typ with
       | .seqOf isTup inner =>
         if f.options.flatten then .error .flattenOrigin
         else
           match dictGetStrict raw (effKey f) with
           | .error e => .error e
           | .ok sub =>
             match sub with
             | .seq _ xs =>
               match desElems (desFns env n).dfld { f with typ := inner }
                   build cols xs with
               | .error e => .error e
               | .ok vs => .ok (.dict [(f.name, .seq isTup vs)])
             | _ => .error .notIterable
       | .mapOf inner =>
         if f.options.flatten then .error .flattenOrigin
         else
           match dictGetStrict raw (effKey f) with
           | .error e => .error e
           | .ok sub =>
             match sub with
             | .dict es =>
               match desEntries (desFns env n).dfld { f with typ := inner }
                   build cols es with
               | .error e => .error e
               | .ok es' => .ok (.dict [(f.name, .dict es')])
             | _ => .error .itemsNonDict
       | .unionT =>
         if f.options.flatten then .error .flattenOrigin
         else desScalar env (desFns env n).ddc f raw inCol build cols
       | _ => desScalar env (desFns env n).ddc f raw inCol build cols) := rfl

theorem desFns_ddc_eq (env : Env) (n : Nat) (dct : Value) (r : RecordSchema)
    (inCol build : Bool) (cols : Option Cols) :
    (desFns env (n + 1)).ddc dct r inCol build cols =
      (match desFieldsLoop ((desFns env (n + 1)).dfld) dct inCol build cols
           r.fields with
       | .error e => .error e
       | .ok ds =>
         match mergeArgs [] ds with
         | .error e => .error e
         | .ok args =>
           if build then constructInstance r args else .ok (.dict args)) := rfl

/-! ## Association-list lemmas -/

theorem alookup_none_of_not_mem (ps : List (String × Value)) (k : String)
    (h : k ∉ ps.map Prod.fst) : alookup ps k = none := by
  induction ps with
  | nil => rfl
  | cons p rest ih =>
    obtain ⟨a, b⟩ := p
    simp only [List.map_cons, List.mem_cons] at h
    push_neg at h
    simp only [alookup]
    rw [if_neg fun he => h.1 he.symm, ih h.2]

theorem alookup_mem_of_eq_some (ps : List (String × Value)) (k : String)
    (v : Value) (h : alookup ps k = some v) : (k, v) ∈ ps := by
  induction ps with
  | nil => simp [alookup] at h
  | cons p rest ih =>
    obtain ⟨a, b⟩ := p
    simp only [alookup] at h
    by_cases hk : a = k
    · rw [if_pos hk] at h
      injection h with h
      subst hk
      subst h
      exact List.mem_cons_self _ _
    · rw [if_neg hk] at h
      exact List.mem_cons_of_mem _ (ih h)

theorem alookup_map_nameFn (g : String → Value) (fs : List FieldSchema)
    (k : String) (hk : k ∈ fs.map FieldSchema.name) :
    alookup (fs.map fun f => (f.name, g f.name)) k = some (g k) := by
  induction fs with
  | nil => simp at hk
  | cons f rest ih =>
    simp only [List.map_cons, List.mem_cons] at hk
    simp only [List.map_cons, alookup]
    by_cases hf : f.name = k
    · rw [if_pos hf, hf]
    · rw [if_neg hf]
      exact ih (hk.resolve_left fun h => hf h.symm)

/-- Reconstructing an instance's attribute dictionary from lookups over it
recovers it exactly, given matching and duplicate-free field names. -/
theorem map_name_lookup_eq_pairs (fs : List FieldSchema)
    (pairs : List (String × Value))
    (hk : pairs.map Prod.fst = fs.map FieldSchema.name)
    (hnd : (fs.map FieldSchema.name).Nodup) :
    fs.map (fun f => (f.name, (alookup pairs f.name).getD .vnone)) = pairs := by
  induction fs generalizing pairs with
  | nil => cases pairs <;> simp_all
  | cons f rest ih =>
    cases pairs with
    | nil => simp at hk
    | cons p prest =>
      obtain ⟨a, b⟩ := p
      simp only [List.map_cons, List.cons.injEq] at hk
      simp only [List.map_cons, List.nodup_cons] at hnd
      have hp1 : a = f.name := hk.1
      have hhead : alookup ((a, b) :: prest) f.name = some b := by
        simp [alookup, hp1]
      have htail : rest.map
            (fun f' => (f'.name, (alookup ((a, b) :: prest) f'.name).getD .vnone))
          = rest.map
            (fun f' => (f'.name, (alookup prest f'.name).getD .vnone)) := by
        apply List.map_congr_left
        intro f' hf'
        have hne : f'.name ≠ f.name := by
          intro heq
          exact hnd.1 (heq ▸ List.mem_map_of_mem FieldSchema.name hf')
        simp only [alookup, hp1]
        rw [if_neg fun h => hne h.symm]
      simp only [List.map_cons, hhead, Option.getD_some, htail, ih prest hk.2 hnd.2,
        List.cons.injEq]
      simp_all

theorem dictIns_append (es : List (String × Value)) (k : String) (v : Value)
    (h : k ∉ es.map Prod.fst) : dictIns es k v = es ++ [(k, v)] := by
  induction es with
  | nil => rfl
  | cons p rest ih =>
    obtain ⟨a, b⟩ := p
    simp only [List.map_cons, List.mem_cons] at h
    push_neg at h
    simp only [dictIns]
    rw [if_neg fun he => h.1 he.symm, ih h.2]
    rfl

/-- The head key of the unmerged tail is fresh for the accumulator. -/
theorem head_key_fresh (acc : List (String × Value)) (a : String)
    (ks : List String) (hnd : (acc.map Prod.fst ++ a :: ks).Nodup) :
    a ∉ acc.map Prod.fst := by
  rcases List.nodup_append.mp hnd with ⟨_, _, hdisj⟩
  intro hmem
  exact hdisj hmem (List.mem_cons_self _ _)

/-- Merging a list of singleton dicts with pairwise-fresh keys is
concatenation. -/
theorem mergeItems_singletons (ps : List (String × Value)) :
    ∀ acc : List (String × Value),
      ((acc.map Prod.fst ++ ps.map Prod.fst).Nodup) →
      mergeItems acc (ps.map fun p => .dict [p]) = .ok (acc ++ ps) := by
  induction ps with
  | nil => intro acc _; simp [mergeItems]
  | cons p rest ih =>
    intro acc hnd
    obtain ⟨a, b⟩ := p
    simp only [List.map_cons] at hnd
    have hfresh : a ∉ acc.map Prod.fst := head_key_fresh acc a _ hnd
    simp only [List.map_cons, mergeItems, dictUpdateAll]
    rw [dictIns_append acc a b hfresh]
    have := ih (acc ++ [(a, b)]) (by simpa using hnd)
    simpa using this

/-- Merging singleton dicts with the `None` filter of
`_deserialize_dataclass` is concatenation of the non-`None` entries. -/
theorem mergeArgs_singletons (ps : List (String × Value)) :
    ∀ acc : List (String × Value),
      ((acc.map Prod.fst ++ ps.map Prod.fst).Nodup) →
      mergeArgs acc (ps.map fun p => .dict [p]) =
        .ok (acc ++ ps.filter fun p => !p.2.isNoneV) := by
  induction ps with
  | nil => intro acc _; simp [mergeArgs]
  | cons p rest ih =>
    intro acc hnd
    obtain ⟨a, b⟩ := p
    simp only [List.map_cons] at hnd
    have hfresh : a ∉ acc.map Prod.fst := head_key_fresh acc a _ hnd
    simp only [List.map_cons, mergeArgs, List.filter_cons]
    by_cases hv : b.isNoneV = true
    · have hdrop : mergeArgs.dropNones [(a, b)] = [] := by
        cases b <;> simp_all [mergeArgs.dropNones, Value.isNoneV]
      rw [hdrop]
      simp only [dictUpdateAll, hv]
      have hnd' : (acc.map Prod.fst ++ rest.map Prod.fst).Nodup := by
        refine List.Nodup.sublist ?_ hnd
        exact List.Sublist.append_left (List.sublist_cons_self _ _) _
      have := ih acc hnd'
      simpa using this
    · have hkeep : mergeArgs.dropNones [(a, b)] = [(a, b)] := by
        cases b <;> simp_all [mergeArgs.dropNones, Value.isNoneV]
      rw [hkeep]
      simp only [dictUpdateAll]
      rw [dictIns_append acc a b hfresh]
      have := ih (acc ++ [(a, b)]) (by simpa using hnd)
      simp only [hv] at this ⊢
      simpa using this

theorem alookup_isSome_of_mem_keys (ps : List (String × Value)) (k : String)
    (h : k ∈ ps.map Prod.fst) : ∃ v, alookup ps k = some v := by
  induction ps with
  | nil => simp at h
  | cons p rest ih =>
    obtain ⟨a, b⟩ := p
    simp only [alookup]
    by_cases hak : a = k
    · exact ⟨b, if_pos hak⟩
    · rw [if_neg hak]
      refine ih ?_
      simp only [List.map_cons, List.mem_cons] at h
      exact h.resolve_left fun he => hak he.symm

theorem filter_keys_subset (q : String × Value → Bool)
    (ps : List (String × Value)) :
    ((ps.filter q).map Prod.fst) ⊆ ps.map Prod.fst := by
  intro x hx
  simp only [List.mem_map] at hx ⊢
  obtain ⟨p, hp, rfl⟩ := hx
  exact ⟨p, (List.mem_filter.mp hp).1, rfl⟩

/-- Looking up in the `None`-filtered entries, given duplicate-free keys. -/
theorem alookup_filter_nones (ps : List (String × Value)) (k : String)
    (hnd : (ps.map Prod.fst).Nodup) :
    alookup (ps.filter fun p => !p.2.isNoneV) k =
      (alookup ps k).bind fun v => if v.isNoneV then none else some v := by
  induction ps with
  | nil => rfl
  | cons p rest ih =>
    obtain ⟨a, b⟩ := p
    simp only [List.map_cons, List.nodup_cons] at hnd
    by_cases hak : a = k
    · subst hak
      by_cases hb : b.isNoneV = true
      · rw [List.filter_cons_of_neg (by simp [hb])]
        rw [alookup_none_of_not_mem _ a
          fun hmem => hnd.1 (filter_keys_subset _ rest hmem)]
        simp [alookup, hb]
      · rw [List.filter_cons_of_pos (by simp [hb])]
        simp [alookup, hb]
    · by_cases hb : b.isNoneV = true
      · rw [List.filter_cons_of_neg (by simp [hb])]
        rw [ih hnd.2]
        simp [alookup, hak]
      · rw [List.filter_cons_of_pos (by simp [hb])]
        simp only [alookup, if_neg hak]
        exact ih hnd.2

/-- The effective key of a field with all-default options is the field
name. -/
theorem effKey_default (f : FieldSchema) (hopt : f.options = defaultOptions) :
    effKey f = f.name := by
  simp [effKey, hopt, defaultOptions, strOpt]

/-- `_serialize_field` on a primitive leaf value of a field with default
options wraps the value under the field name, at any sufficient fuel. -/
theorem serializeField_prim_step (env : Env) (n : Nat) (f : FieldSchema)
    (v : Value) (hopt : f.options = defaultOptions)
    (hb : isPrimitiveLeaf v = true) :
    (serFns env (n + 1)).fld f v false = .ok (.dict [(f.name, v)]) := by
  have heff := effKey_default f hopt
  cases v with
  | prim p =>
    cases p with
    | penum c m => simp [isPrimitiveLeaf] at hb
    | pstr s =>
      rw [serFns_fld_eq, serFns_getProc_eq, serFns_getVal_eq]
      simp_all [defaultOptions, strOpt, AddType.truthy]
    | pint m =>
      rw [serFns_fld_eq, serFns_getProc_eq, serFns_getVal_eq]
      simp_all [defaultOptions, strOpt, AddType.truthy]
    | pfloat t =>
      rw [serFns_fld_eq, serFns_getProc_eq, serFns_getVal_eq]
      simp_all [defaultOptions, strOpt, AddType.truthy]
    | pbool b =>
      rw [serFns_fld_eq, serFns_getProc_eq, serFns_getVal_eq]
      simp_all [defaultOptions, strOpt, AddType.truthy]
  | vnone => simp [isPrimitiveLeaf] at hb
  | seq isTup xs => simp [isPrimitiveLeaf] at hb
  | dict es => simp [isPrimitiveLeaf] at hb
  | inst cls fv => simp [isPrimitiveLeaf] at hb
  | pyclass nm => simp [isPrimitiveLeaf] at hb

/-- The field loop of `_serialize_dataclass` over primitive-leaf fields
with default options produces one singleton dict per field. -/
theorem serFieldsLoop_prim (env : Env) (n : Nat) (cls : String)
    (pairs : List (String × Value)) (fs : List FieldSchema)
    (hopt : ∀ f ∈ fs, f.options = defaultOptions)
    (hmem : ∀ f ∈ fs, f.name ∈ pairs.map Prod.fst)
    (hb : ∀ p ∈ pairs, isPrimitiveLeaf p.2 = true) :
    serFieldsLoop ((serFns env (n + 1)).fld) (.inst cls pairs) fs =
      .ok (fs.map fun f => .dict [(f.name, (alookup pairs f.name).getD .vnone)]) := by
  induction fs with
  | nil => rfl
  | cons f rest ih =>
    obtain ⟨v, hv⟩ := alookup_isSome_of_mem_keys pairs f.name
      (hmem f (List.mem_cons_self _ _))
    have hvb : isPrimitiveLeaf v = true := by
      have := alookup_mem_of_eq_some pairs f.name v hv
      exact hb _ this
    simp only [serFieldsLoop, getAttr, hv]
    rw [serializeField_prim_step env n f v (hopt f (List.mem_cons_self _ _)) hvb]
    rw [ih (fun f' hf' => hopt f' (List.mem_cons_of_mem _ hf'))
      (fun f' hf' => hmem f' (List.mem_cons_of_mem _ hf'))]
    simp [hv]

/-- `_deserialize_field` on a primitive-typed field with default options
extracts by name leniently and wraps under the field name. -/
theorem deserializeField_prim_step (env : Env) (n : Nat) (f : FieldSchema)
    (tree : List (String × Value)) (build : Bool) (cols : Option Cols)
    (ht : f.typ = .primT) (hopt : f.options = defaultOptions) :
    (desFns env (n + 1)).dfld f (.dict tree) false build cols =
      .ok (.dict [(f.name, (alookup tree f.name).getD .vnone)]) := by
  have heff := effKey_default f hopt
  rw [desFns_dfld_eq, ht]
  cases halk : alookup tree f.name <;>
    simp_all [desScalar, dictGetLenient, fieldType, defaultOptions,
      AddType.truthy, FType.isRec, ht]

/-- The field loop of `_deserialize_dataclass` over primitive-typed fields
with default options. -/
theorem desFieldsLoop_prim (env : Env) (n : Nat)
    (tree : List (String × Value)) (build : Bool) (cols : Option Cols)
    (fs : List FieldSchema)
    (hf : ∀ f ∈ fs, f.typ = FType.primT ∧ f.options = defaultOptions) :
    desFieldsLoop ((desFns env (n + 1)).dfld) (.dict tree) false build cols fs =
      .ok (fs.map fun f => .dict [(f.name, (alookup tree f.name).getD .vnone)]) := by
  induction fs with
  | nil => rfl
  | cons f rest ih =>
    obtain ⟨ht, hopt⟩ := hf f (List.mem_cons_self _ _)
    simp only [desFieldsLoop]
    rw [deserializeField_prim_step env n f tree build cols ht hopt]
    rw [ih fun f' hf' => hf f' (List.mem_cons_of_mem _ hf')]
    rfl

/-- `dataclass(**args)` when every field's argument is present. -/
theorem construct_go_all_found (args : List (String × Value))
    (fs : List FieldSchema)
    (h : ∀ f ∈ fs, ∃ v, alookup args f.name = some v) :
    constructInstance.go args fs =
      .ok (fs.map fun f => (f.name, (alookup args f.name).getD .vnone)) := by
  induction fs with
  | nil => rfl
  | cons f rest ih =>
    obtain ⟨v, hv⟩ := h f (List.mem_cons_self _ _)
    simp only [constructInstance.go, hv]
    rw [ih fun f' hf' => h f' (List.mem_cons_of_mem _ hf')]
    simp [hv]

/-- `dataclass(**args)` raises a missing-required-argument `TypeError` when
some field has neither an argument nor a default. -/
theorem construct_go_missing (args : List (String × Value))
    (fs : List FieldSchema) (f : FieldSchema) (hf : f ∈ fs)
    (hl : alookup args f.name = none) (hd : f.dflt = none) :
    ∃ g, constructInstance.go args fs = .error (.missingArg g) := by
  induction fs with
  | nil => cases hf
  | cons f0 rest ih =>
    rcases List.mem_cons.mp hf with heq | hmem
    · subst heq
      exact ⟨f.name, by simp [constructInstance.go, hl, hd]⟩
    · cases hres : alookup args f0.name with
      | some v =>
        obtain ⟨g, hg⟩ := ih hmem
        exact ⟨g, by simp [constructInstance.go, hres, hg]⟩
      | none =>
        cases hdf : f0.dflt with
        | some d =>
          obtain ⟨g, hg⟩ := ih hmem
          exact ⟨g, by simp [constructInstance.go, hres, hdf, hg]⟩
        | none => exact ⟨f0.name, by simp [constructInstance.go, hres, hdf]⟩

/-- If `dataclass(**args)` succeeds, every field had an argument or a
default. -/
theorem construct_go_success (args : List (String × Value))
    (fs : List FieldSchema) (pairs : List (String × Value))
    (h : constructInstance.go args fs = .ok pairs) :
    ∀ f ∈ fs, (alookup args f.name).isSome ∨ f.dflt.isSome := by
  induction fs generalizing pairs with
  | nil => intro f hf; cases hf
  | cons f0 rest ih =>
    intro f hf
    rcases hrest : constructInstance.go args rest with e | ps
    · exfalso
      cases hres : alookup args f0.name with
      | some v => simp [constructInstance.go, hres, hrest] at h
      | none =>
        cases hdf : f0.dflt with
        | some d => simp [constructInstance.go, hres, hdf, hrest] at h
        | none => simp [constructInstance.go, hres, hdf] at h
    · rcases List.mem_cons.mp hf with heq | hmem
      · subst heq
        cases hres : alookup args f.name with
        | some v => exact Or.inl (by simp [hres])
        | none =>
          cases hdf : f.dflt with
          | some d => exact Or.inr (by simp [hdf])
          | none => exact absurd h (by simp [constructInstance.go, hres, hdf])
      · exact ih ps hrest f hmem

theorem not_noneV_of_primitiveLeaf (v : Value)
    (h : isPrimitiveLeaf v = true) : v.isNoneV = false := by
  cases v with
  | prim p => cases p <;> rfl
  | vnone => simp [isPrimitiveLeaf] at h
  | seq t xs => rfl
  | dict es => rfl
  | inst c fv => rfl
  | pyclass nm => rfl

/-- Serializing an instance of a record made of primitive-leaf,
default-option fields yields exactly its attribute dictionary. -/
theorem serialize_prim_record (env : Env) (n : Nat) (r : RecordSchema)
    (pairs : List (String × Value))
    (henv : envLookup env r.name = some r)
    (hopt : ∀ f ∈ r.fields, f.options = defaultOptions)
    (hnd : (r.fields.map FieldSchema.name).Nodup)
    (hk : pairs.map Prod.fst = r.fields.map FieldSchema.name)
    (hb : ∀ p ∈ pairs, isPrimitiveLeaf p.2 = true) :
    serialize_dataclass env (n + 1) (.inst r.name pairs) = .ok (.dict pairs) := by
  have hmem : ∀ f ∈ r.fields, f.name ∈ pairs.map Prod.fst := by
    intro f hf
    rw [hk]
    exact List.mem_map_of_mem _ hf
  have hloop := serFieldsLoop_prim env n r.name pairs r.fields hopt hmem hb
  have hmapmap : (r.fields.map fun f =>
        Value.dict [(f.name, (alookup pairs f.name).getD .vnone)])
      = ((r.fields.map fun f => (f.name, (alookup pairs f.name).getD .vnone)).map
          fun p => Value.dict [p]) := by
    rw [List.map_map]
    rfl
  have hkeys : ((([] : List (String × Value)).map Prod.fst) ++
      ((r.fields.map fun f =>
        (f.name, (alookup pairs f.name).getD .vnone)).map Prod.fst)).Nodup := by
    simpa [List.map_map, Function.comp] using hnd
  have hmerge := mergeItems_singletons
    (r.fields.map fun f => (f.name, (alookup pairs f.name).getD .vnone)) [] hkeys
  have hrec := map_name_lookup_eq_pairs r.fields pairs hk hnd
  have hmerge2 : mergeItems [] (pairs.map fun p => Value.dict [p]) =
      .ok pairs := by
    rw [hrec] at hmerge
    simpa using hmerge
  simp only [serialize_dataclass, serialize_dataclass_aux, serFns_dc_eq, henv,
    hloop, hmapmap, hrec, hmerge2]

/-- Deserializing any tree against a record of primitive-typed,
default-option fields reduces to the collected argument mapping
(constructed into an instance exactly when `build_instance` is true). -/
theorem deserialize_prim_record (env : Env) (n : Nat) (r : RecordSchema)
    (tree : List (String × Value)) (build : Bool) (cols : Option Cols)
    (hf : ∀ f ∈ r.fields, f.typ = FType.primT ∧ f.options = defaultOptions)
    (hnd : (r.fields.map FieldSchema.name).Nodup) :
    deserialize_dataclass env (n + 1) (.dict tree) r build cols =
      if build then constructInstance r (argsOf r tree)
      else .ok (.dict (argsOf r tree)) := by
  have hloop := desFieldsLoop_prim env n tree build cols r.fields hf
  have hmapmap : (r.fields.map fun f =>
        Value.dict [(f.name, (alookup tree f.name).getD .vnone)])
      = ((r.fields.map fun f => (f.name, (alookup tree f.name).getD .vnone)).map
          fun p => Value.dict [p]) := by
    rw [List.map_map]
    rfl
  have hkeys : ((([] : List (String × Value)).map Prod.fst) ++
      ((r.fields.map fun f =>
        (f.name, (alookup tree f.name).getD .vnone)).map Prod.fst)).Nodup := by
    simpa [List.map_map, Function.comp] using hnd
  have hmerge := mergeArgs_singletons
    (r.fields.map fun f => (f.name, (alookup tree f.name).getD .vnone)) [] hkeys
  simp only [deserialize_dataclass, deserialize_dataclass_aux, desFns_ddc_eq,
    hloop, hmapmap, hmerge, List.nil_append, argsOf]

/-- Looking up a field's collected argument for a primitive-leaf record:
the lenient tree lookup with `None` entries dropped. -/
theorem argsOf_lookup (r : RecordSchema) (tree : List (String × Value))
    (f : FieldSchema) (hf : f ∈ r.fields)
    (hnd : (r.fields.map FieldSchema.name).Nodup) :
    alookup (argsOf r tree) f.name =
      (if ((alookup tree f.name).getD .vnone).isNoneV then none
       else some ((alookup tree f.name).getD .vnone)) := by
  have hknd : ((r.fields.map fun f =>
      (f.name, (alookup tree f.name).getD .vnone)).map Prod.fst).Nodup := by
    simpa [List.map_map, Function.comp] using hnd
  have hmem : f.name ∈ (r.fields.map fun f =>
      (f.name, (alookup tree f.name).getD .vnone)).map Prod.fst := by
    simp only [List.map_map]
    exact List.mem_map_of_mem _ hf
  rw [argsOf, alookup_filter_nones _ _ hknd,
    alookup_map_nameFn (fun k => (alookup tree k).getD .vnone) r.fields f.name
      (by simpa [List.map_map, Function.comp] using hmem)]
  cases hcase : ((alookup tree f.name).getD Value.vnone).isNoneV <;>
    simp [hcase]

/-! ## Claim C1 -/

/-- C1 (confirmed): for every Record instance `x` all of whose fields are
primitive leaves (no FieldOptions attached to any field), deserializing the
serialized tree with `build_instance=true` reconstructs an instance equal
to `x`: `deserialize_dataclass(serialize_dataclass(x), type(x),
build_instance=true) == x`. Quantified over every schema of primitive-typed
fields with default options and distinct names, every instance whose
attribute values are primitive leaves, and every sufficient fuel. -/
theorem claim_C1_roundtrip_primitive_leaves (env : Env) (n : Nat)
    (r : RecordSchema) (pairs : List (String × Value))
    (henv : envLookup env r.name = some r)
    (hf : ∀ f ∈ r.fields, f.typ = FType.primT ∧ f.options = defaultOptions)
    (hnd : (r.fields.map FieldSchema.name).Nodup)
    (hk : pairs.map Prod.fst = r.fields.map FieldSchema.name)
    (hb : ∀ p ∈ pairs, isPrimitiveLeaf p.2 = true) :
    (serialize_dataclass env (n + 1) (.inst r.name pairs)).bind
        (fun tree => deserialize_dataclass env (n + 1) tree r true none)
      = .ok (.inst r.name pairs) := by
  rw [serialize_prim_record env n r pairs henv (fun f hf' => (hf f hf').2)
    hnd hk hb]
  show deserialize_dataclass env (n + 1) (.dict pairs) r true none = _
  rw [deserialize_prim_record env n r pairs true none hf hnd]
  have hargs : argsOf r pairs = pairs := by
    rw [argsOf, map_name_lookup_eq_pairs r.fields pairs hk hnd]
    exact List.filter_eq_self.mpr fun p hp => by
      rw [not_noneV_of_primitiveLeaf p.2 (hb p hp)]
      rfl
  have hfound : ∀ f ∈ r.fields, ∃ v, alookup pairs f.name = some v := by
    intro f hf'
    exact alookup_isSome_of_mem_keys pairs f.name
      (by rw [hk]; exact List.mem_map_of_mem _ hf')
  have hgo := construct_go_all_found pairs r.fields hfound
  simp only [if_true, hargs, constructInstance, hgo,
    map_name_lookup_eq_pairs r.fields pairs hk hnd]

/-- Witness for C1 at `Child(age=1, name="bob")`. -/
theorem claim_C1_roundtrip_primitive_leaves_witness :
    (serialize_dataclass envC1 1 (.inst childR.name pairsC1)).bind
        (fun tree => deserialize_dataclass envC1 1 tree childR true none)
      = .ok (.inst childR.name pairsC1) :=
  claim_C1_roundtrip_primitive_leaves envC1 0 childR pairsC1 rfl
    (by decide) (by decide) (by decide) (by decide)

/-! ## Claim C2 -/

/-- C2 (confirmed): for every field, the key under which its type tag is
stored (`_type_key`) is the `type_label` option if set; otherwise the
fixed default label `"typ"` when `flatten` is false; otherwise the field's
effective key (`overwrite_key` if set, else the field name). "Set" is read
as set to a non-empty string, matching the source's truthiness tests. -/
theorem claim_C2_type_tag_key (f : FieldSchema)
    (h1 : f.options.type_label ≠ some "")
    (h2 : f.options.overwrite_key ≠ some "") :
    typeKey f = typeKeySpec f := by
  unfold typeKey typeKeySpec effKey strOpt
  cases hl : f.options.type_label with
  | some s =>
    have hs : ¬(s = "") := fun he => h1 (by rw [hl, he])
    simp [hs]
  | none =>
    cases hfl : f.options.flatten with
    | false => simp [DEFAULT_TYPE_LABEL]
    | true =>
      cases hw : f.options.overwrite_key with
      | some s' =>
        have hs' : ¬(s' = "") := fun he => h2 (by rw [hw, he])
        simp [hs']
      | none => simp

/-- Witness for C2 at a flattened field with an `overwrite_key`. -/
theorem claim_C2_type_tag_key_witness :
    fC2.options.type_label ≠ some "" ∧ fC2.options.overwrite_key ≠ some ""
      ∧ typeKey fC2 = typeKeySpec fC2 :=
  ⟨by decide, by decide, claim_C2_type_tag_key fC2 (by decide) (by decide)⟩

/-! ## Claim C3 -/

/-- Counterexample to C3 as stated: with `add_type="kind"` on the `person`
field (and `type_label` unset), tools.py stores the type tag under the
computed default key `"typ"`; no `"kind"` key appears anywhere in the
serialized sub-dict. -/
theorem claim_C3_add_type_string_counterexample :
    serialize_dataclass (envC3 "kind") 10 personInst = .ok personTree
    ∧ alookup personTreeEntries "kind" = none
    ∧ alookup personTreeEntries "typ" = some (.prim (.pstr "Adult")) :=
  ⟨rfl, rfl, rfl⟩

/-- C3 (corrected): in tools.py a string-valued `add_type` merely enables
type-tagging: the tag key is still `_type_key` (which ignores the string;
first conjunct), and serialization concretely stores the tag under `"typ"`
(second conjunct). The claimed string-key override exists only in the
legacy root-level `serializer.py` (third conjunct). -/
theorem claim_C3_add_type_string_amended (f : FieldSchema) (s : String)
    (hs : s ≠ "") :
    typeKey { f with options := { f.options with add_type := AddType.key s } }
        = typeKey f
    ∧ serialize_dataclass (envC3 "kind") 10 personInst = .ok personTree
    ∧ legacySerializerTypeKey (.key s) f.options.flatten (effKey f)
        = some s := by
  refine ⟨rfl, rfl, ?_⟩
  simp [legacySerializerTypeKey, AddType.truthy, hs]

/-- Witness for the amended C3 at `s = "kind"`. -/
theorem claim_C3_add_type_string_amended_witness :
    typeKey { fC2 with options :=
        { fC2.options with add_type := AddType.key "kind" } } = typeKey fC2
    ∧ serialize_dataclass (envC3 "kind") 10 personInst = .ok personTree
    ∧ legacySerializerTypeKey (.key "kind") fC2.options.flatten (effKey fC2)
        = some "kind" :=
  claim_C3_add_type_string_amended fC2 "kind" (by decide)

/-! ## Claim C4 -/

/-- C4 (confirmed): with `substitute_by_attribute="name"` on the list field
`childs` holding children named `"leon"` then `"nathan"`, serialization
yields `["leon", "nathan"]` under `childs` (order preserved), and
deserializing that tree with `build_instance=true` and the
Collection-Reference Index `{"childs": {"leon": c1, "nathan": c2}}`
restores the full child instances in the same order. -/
theorem claim_C4_substitute_by_attribute_roundtrip :
    serialize_dataclass envC4 10 parentInst = .ok parentTree
    ∧ deserialize_dataclass envC4 10 parentTree parentR true (some colsC4)
        = .ok parentInst :=
  ⟨rfl, rfl⟩

/-! ## Claim C5 -/

/-- Counterexample to C5 as stated: with the public default
`build_instance=False`, deserializing a tree that lacks the required field
`age` (which has no default) does not fail at all — the returned argument
mapping simply omits the key. -/
theorem claim_C5_missing_key_counterexample :
    deserialize_dataclass [] 1 (.dict treeC5) childR false none
      = .ok (.dict treeC5)
    ∧ allRequired childR = true
    ∧ alookup treeC5 "age" = none :=
  ⟨rfl, rfl, rfl⟩

/-- C5 (corrected): scoped to records of non-flattened, primitive-typed,
option-free fields with distinct names — the setting where the claim's
`MissingKeyError` account holds. When `build_instance` is true, a field
whose effective key is absent from the tree and which has no default makes
the call fail with the missing-required-argument error (the spec's
`MissingKeyError`, raised by the constructor); a missing key is tolerated
only when the field has a default; and when `build_instance` is false (the
public default) the call never fails — the key is simply absent from the
returned argument mapping. Outside this scope the behavior differs: a
missing record-typed field makes the nested recursion raise
`AttributeError` from `None.get`, regardless of `build_instance`, not the
missing-argument error. -/
theorem claim_C5_missing_key_amended (env : Env) (n : Nat) (r : RecordSchema)
    (tree : List (String × Value)) (cols : Option Cols)
    (hf : ∀ f ∈ r.fields, f.typ = FType.primT ∧ f.options = defaultOptions)
    (hnd : (r.fields.map FieldSchema.name).Nodup) :
    (∀ f ∈ r.fields, alookup tree f.name = none → f.dflt = none →
      ∃ g, deserialize_dataclass env (n + 1) (.dict tree) r true cols
        = .error (.missingArg g))
    ∧ (∀ v, deserialize_dataclass env (n + 1) (.dict tree) r true cols = .ok v →
      ∀ f ∈ r.fields, alookup tree f.name = none → f.dflt.isSome)
    ∧ deserialize_dataclass env (n + 1) (.dict tree) r false cols
        = .ok (.dict (argsOf r tree)) := by
  have hd := deserialize_prim_record env n r tree true cols hf hnd
  simp only [if_true] at hd
  refine ⟨?_, ?_, ?_⟩
  · intro f hmem hl hdef
    have hargs : alookup (argsOf r tree) f.name = none := by
      rw [argsOf_lookup r tree f hmem hnd, hl]
      simp [Value.isNoneV]
    obtain ⟨g, hg⟩ := construct_go_missing (argsOf r tree) r.fields f hmem
      hargs hdef
    exact ⟨g, by rw [hd]; simp [constructInstance, hg]⟩
  · intro v hv f hmem hl
    rw [hd] at hv
    have hargs : alookup (argsOf r tree) f.name = none := by
      rw [argsOf_lookup r tree f hmem hnd, hl]
      simp [Value.isNoneV]
    rcases hgo : constructInstance.go (argsOf r tree) r.fields with e | ps
    · exfalso
      simp [constructInstance, hgo] at hv
    · rcases construct_go_success (argsOf r tree) r.fields ps hgo f hmem with
        hsome | hdflt
      · rw [hargs] at hsome
        simp at hsome
      · exact hdflt
  · have hd0 := deserialize_prim_record env n r tree false cols hf hnd
    simpa using hd0

/-- Witness for the amended C5: deserializing `{"name": "x"}` into `Child`
with `build_instance=true` fails with the missing-argument error. -/
theorem claim_C5_missing_key_amended_witness :
    ∃ g, deserialize_dataclass [] 1 (.dict treeC5) childR true none
      = .error (.missingArg g) :=
  (claim_C5_missing_key_amended [] 0 childR treeC5 none (by decide)
    (by decide)).1 ageF (List.mem_cons_self _ _) rfl rfl

/-! ## Claim C6 -/

/-- Counterexample to C6 as stated: serializing a flattened list field does
not fail — the flatten option is ignored (the list branch of
`_serialize_field` returns before the flatten check) and the sequence is
nested under the field's key. -/
theorem claim_C6_flatten_sequence_counterexample :
    serialize_dataclass envC6 10 fparInst = .ok fparTree
    ∧ ((findField flatParR "childs").map fun f => f.options.flatten)
        = some true :=
  ⟨rfl, rfl⟩

/-- C6 (corrected): for every field and every sequence value whose
elements serialize, `_serialize_field` does not fail — whatever `flatten`
(or `in_collection`) is, the list/tuple branch returns the serialized
sequence nested under the field's effective key, before the flatten check
ever runs (the option's own docstring says flatten is "overridden" for
sequences); and for every sequence-typed field with `flatten=true`,
`_deserialize_field` fails with the configuration error (`ValueError`:
"can't be flattened") on every input. -/
theorem claim_C6_flatten_sequence_amended (env : Env) (n : Nat)
    (f : FieldSchema) (isTup : Bool) (inner : FType) (xs vs : List Value)
    (raw : Value) (inCol inCol' build : Bool) (cols : Option Cols)
    (hty : f.typ = FType.seqOf isTup inner)
    (hfl : f.options.flatten = true)
    (hels : serElems (serFns env n).fld f xs = .ok vs) :
    serializeField env (n + 1) f (.seq isTup xs) inCol
      = .ok (.dict [(effKey f, .seq isTup vs)])
    ∧ deserializeField env (n + 1) f raw inCol' build cols
      = .error .flattenOrigin := by
  constructor
  · simp only [serializeField, serFns_fld_eq, hels]
  · simp only [deserializeField, desFns_dfld_eq, hty, hfl, if_true]

/-- Witness for the amended C6 at the `childs: list[Child] (flatten=True)`
field: serialization nests the serialized child under `"childs"`,
deserialization of the same field fails. -/
theorem claim_C6_flatten_sequence_amended_witness :
    serializeField envC6 10 flatChildsF (.seq false [cLeon]) false
      = .ok (.dict [(effKey flatChildsF, .seq false
          [.dict [("age", .prim (.pint 1)), ("name", .prim (.pstr "leon"))]])])
    ∧ deserializeField envC6 10 flatChildsF fparTree false true none
      = .error .flattenOrigin :=
  claim_C6_flatten_sequence_amended envC6 9 flatChildsF false (.record "Child")
    [cLeon] [.dict [("age", .prim (.pint 1)), ("name", .prim (.pstr "leon"))]]
    fparTree false false true none rfl rfl rfl

/-! ## Claim C7 -/

/-- Counterexample to C7 as stated: a sequence-typed field with
`add_type=True` and no `subtype_table` deserializes an empty list without
any error, because the configuration check runs per element. -/
theorem claim_C7_add_type_no_table_counterexample :
    deserialize_dataclass envC7b 10 (.dict [("persons", .seq false [])])
        personsR true none
      = .ok (.inst "Persons" [("persons", .seq false [])])
    ∧ ((findField personsR "persons").map fun f => f.options.add_type.truthy)
        = some true
    ∧ ((findField personsR "persons").map fun f =>
        tableTruthy f.options.subtype_table) = some false :=
  ⟨rfl, rfl, rfl⟩

/-- C7 (corrected): for every non-collection field (Union-typed fields
additionally not flattened) with truthy `add_type` and an absent or empty
`subtype_table`, deserializing the field fails with the configuration
error before any result is produced, whatever the input dict; and
serializing the same configuration does not fail (concrete second
conjunct). For sequence/mapping fields the check runs per element, so an
empty collection deserializes without error. -/
theorem claim_C7_add_type_no_table_amended (env : Env) (n : Nat)
    (f : FieldSchema) (es : List (String × Value)) (build : Bool)
    (cols : Option Cols)
    (hcol : isCollectionType f.typ = false)
    (hfl : f.typ = FType.unionT → f.options.flatten = false)
    (ha : f.options.add_type.truthy = true)
    (ht : tableTruthy f.options.subtype_table = false) :
    deserializeField env (n + 1) f (.dict es) false build cols
      = .error .addTypeNoTable
    ∧ serialize_dataclass envC7 10 personInst = .ok personTree := by
  refine ⟨?_, rfl⟩
  rw [deserializeField, desFns_dfld_eq]
  have hscalar : desScalar env (desFns env n).ddc f (.dict es) false build cols
      = .error .addTypeNoTable := by
    cases hflat : f.options.flatten with
    | true =>
      simp [desScalar, hflat, fieldType, ha, ht]
    | false =>
      cases halk : alookup es (effKey f) with
      | some v =>
        simp [desScalar, hflat, dictGetLenient, halk, fieldType, ha, ht]
      | none =>
        simp [desScalar, hflat, dictGetLenient, halk, fieldType, ha, ht]
  cases hty : f.typ with
  | seqOf t i => rw [hty] at hcol; simp [isCollectionType] at hcol
  | mapOf i => rw [hty] at hcol; simp [isCollectionType] at hcol
  | unionT =>
    rw [hfl hty]
    simpa using hscalar
  | primT => simpa using hscalar
  | record rn => simpa using hscalar

/-- Witness for the amended C7 at the `person` field of `Person`. -/
theorem claim_C7_add_type_no_table_amended_witness :
    deserializeField envC7 10 personF (.dict personTreeEntries) false true none
      = .error .addTypeNoTable
    ∧ serialize_dataclass envC7 10 personInst = .ok personTree :=
  claim_C7_add_type_no_table_amended envC7 9 personF personTreeEntries true
    none rfl (fun _ => rfl) rfl rfl

/-! ## Claim C8 -/

/-- Counterexample to C8 as stated: an enum-valued attribute is outside the
claim's permitted set (string, integer, float, boolean), yet serialization
does not raise `KeyTypeError` — `PERMITED_KEY_TYPES` also admits `Enum`. -/
theorem claim_C8_substitute_key_type_counterexample :
    getProcessValue [] 1 subsColorF enumChild
      = .ok (.prim (.penum "Color" "RED"))
    ∧ claimPermittedScalar (.prim (.penum "Color" "RED")) = false :=
  ⟨rfl, rfl⟩

/-- C8 (corrected): for every field with a truthy `substitute_by_attribute`,
serialization reads that attribute from the value and fails with
`KeyTypeError` if and only if the attribute's runtime value is not one of
the permitted scalar key types — string, integer, float, boolean, *or an
enum member*; otherwise the attribute's scalar value itself becomes the
serialized value (no type tag is added). -/
theorem claim_C8_substitute_key_type_amended (env : Env) (n : Nat)
    (f : FieldSchema) (obj : Value) (a : String) (v : Value)
    (hs : strOpt f.options.subs_by_attr = some a)
    (hv : getAttr obj a = .ok v) :
    getProcessValue env (n + 1) f obj =
      if isPermittedKey v then .ok v else .error .keyType := by
  rw [getProcessValue, serFns_getProc_eq, hs]
  simp [hv]

/-- Witness for the amended C8 at the enum-valued attribute. -/
theorem claim_C8_substitute_key_type_amended_witness :
    strOpt subsColorF.options.subs_by_attr = some "color"
    ∧ getProcessValue [] 1 subsColorF enumChild =
        (if isPermittedKey (.prim (.penum "Color" "RED"))
         then .ok (.prim (.penum "Color" "RED")) else .error .keyType) :=
  ⟨rfl, claim_C8_substitute_key_type_amended [] 0 subsColorF enumChild
    "color" (.prim (.penum "Color" "RED")) rfl rfl⟩

/-! ## Claim C9 -/

/-- C9 (code bug): when `type_name` is the string `"Foo"`, the rendered
type-tag value stored in the tree is the builtin class `str` itself, not
`"Foo"` — `_type_str` executes `return str` instead of returning the
string, contradicting the option's own docstring ("Can be a string, in
which case that value will be used"). The default `type_name` renders the
type's own name, as claimed. -/
theorem claim_C9_type_name_string_code_bug :
    serialize_dataclass envC9 10 personInst
      = .ok (.dict [("person", .dict [("typ", .pyclass "str"),
          ("name", .prim (.pstr "bob")), ("job", .prim (.pstr "cook"))])])
    ∧ typeStr (.strName "Foo") "Adult" = .pyclass "str"
    ∧ typeStr .dflt "Adult" = .prim (.pstr "Adult") :=
  ⟨rfl, rfl, rfl⟩

/-! ## Claim C10 -/

/-- C10 (confirmed): the public `deserialize_dataclass` called without
`build_instance` can only return a plain argument mapping, never a
constructed instance (its default is `build_instance=False`); the internal
`_deserialize_dataclass` called with its own defaults builds an instance
(`build_instance=True`), shown concretely on `Child`. -/
theorem claim_C10_public_default_returns_mapping :
    (∀ (env : Env) (fuel : Nat) (dct : Value) (r : RecordSchema) (v : Value),
      deserialize_dataclass_default env fuel dct r = .ok v →
      ∃ es, v = .dict es)
    ∧ deserialize_dataclass_aux_default envC1 10 (.dict pairsC1) childR
        = .ok (.inst "Child" pairsC1) := by
  constructor
  · intro env fuel dct r v h
    cases fuel with
    | zero =>
      simp [deserialize_dataclass_default, deserialize_dataclass,
        deserialize_dataclass_aux, desFns] at h
    | succ n =>
      rw [deserialize_dataclass_default, deserialize_dataclass,
        deserialize_dataclass_aux, desFns_ddc_eq] at h
      split at h
      · exact absurd h (by simp)
      · split at h
        · exact absurd h (by simp)
        · simp only [Bool.false_eq_true, if_false, Except.ok.injEq] at h
          exact ⟨_, h.symm⟩
  · rfl

/-- Witness for C10: the public call at defaults on a full tree returns
the argument mapping, a dict. -/
theorem claim_C10_public_default_returns_mapping_witness :
    deserialize_dataclass_default envC1 1 (.dict pairsC1) childR
      = .ok (.dict pairsC1)
    ∧ ∃ es, (Value.dict pairsC1) = .dict es :=
  ⟨rfl, claim_C10_public_default_returns_mapping.1 envC1 1 (.dict pairsC1)
    childR (.dict pairsC1) rfl⟩

end DataclassTools
